import Mathlib

/-!
Shallow embedding of the resume-upload endpoint (`src/app/api/upload-resume/route.ts`)
and its client upload hook.  Texts are modelled as `List Char`; JavaScript regular
expression replacement is modelled by a small backtracking matcher covering exactly
the pattern constructs the source uses; `JSON.parse` is modelled by an executable
recursive-descent JSON parser.  External collaborators (the mammoth document
conversion library, Node buffer decoding, and the generative-AI model) are inputs
of the model: their outputs are fields of an `Env` record, since their behaviour is
not code of this repository.
-/

namespace Tropl

/-! ## Basic JavaScript string helpers -/

/-- Whitespace as recognised by JavaScript `trim` and the regex class `\s`
(the common members; exotic Unicode space characters are not exercised here). -/
def isJsSpace (c : Char) : Bool :=
  c = ' ' || c = '\t' || c = '\n' || c = '\r' || c = '\x0b' || c = '\x0c' ||
  c = ' ' || c = '﻿'

/-- JavaScript `String.prototype.trim`. -/
def jsTrim (cs : List Char) : List Char :=
  ((cs.dropWhile isJsSpace).reverse.dropWhile isJsSpace).reverse

/-- ASCII lowercasing, modelling `String.prototype.toLowerCase` on the ASCII
data this endpoint compares (MIME types, extensions, error messages). -/
def jsLower (cs : List Char) : List Char := cs.map Char.toLower

/-- JavaScript `String.prototype.includes`, i.e. substring containment. -/
def containsSub (hay needle : List Char) : Bool :=
  match hay with
  | [] => needle.isEmpty
  | _ :: rest => needle.isPrefixOf hay || containsSub rest needle

/-- Prefix test, modelling `String.prototype.startsWith`. -/
def startsWithL (hay pre : List Char) : Bool := pre.isPrefixOf hay

/-- The segment of `cs` after its last dot, or all of `cs` when it has no dot.
This is exactly `s.split('.').pop()` in JavaScript (`split` always returns a
non-empty array, so `pop` returns its last element). -/
def lastDotSegment (cs : List Char) : List Char :=
  match cs with
  | [] => []
  | '.' :: rest => if ('.' ∈ rest) then lastDotSegment rest else rest
  | _ :: rest => if ('.' ∈ rest) then lastDotSegment rest else cs

/-- Left brace character, written by code point to keep literals brace-free. -/
def lb : Char := Char.ofNat 123

/-- Right brace character, written by code point. -/
def rb : Char := Char.ofNat 125

/-! ## A backtracking regular-expression matcher

Covers the constructs used by the source's regex literals: character literals,
single-character classes, concatenation, ordered alternation, greedy `*`/`+`
over a character class, and greedy `?`.  Matching is full-backtracking, like
JavaScript's engine. -/

inductive RE where
  | eps
  | lit (c : Char)
  | cls (p : Char → Bool)
  | seq (a b : RE)
  | alt (a b : RE)
  | starCls (p : Char → Bool)
  | opt (a : RE)

/-- Literal string as a regex. -/
def reLit : List Char → RE
  | [] => .eps
  | c :: cs => .seq (.lit c) (reLit cs)

/-- Greedy star over a character class with backtracking: try the longest
consumption first, then shorter ones, resuming the continuation `k`. -/
def starBT (p : Char → Bool) (k : List Char → Option (List Char)) :
    List Char → Option (List Char)
  | [] => k []
  | c :: cs =>
    if p c then
      match starBT p k cs with
      | some r => some r
      | none => k (c :: cs)
    else k (c :: cs)

/-- Backtracking matcher in continuation style: `matchCont r cs k` tries to
match `r` against a prefix of `cs` and runs `k` on the remainder. -/
def matchCont : RE → List Char → (List Char → Option (List Char)) → Option (List Char)
  | .eps, cs, k => k cs
  | .lit c, cs, k =>
    match cs with
    | [] => none
    | x :: xs => if x = c then k xs else none
  | .cls p, cs, k =>
    match cs with
    | [] => none
    | x :: xs => if p x then k xs else none
  | .seq a b, cs, k => matchCont a cs fun r => matchCont b r k
  | .alt a b, cs, k =>
    match matchCont a cs k with
    | some r => some r
    | none => matchCont b cs k
  | .starCls p, cs, k => starBT p k cs
  | .opt a, cs, k =>
    match matchCont a cs k with
    | some r => some r
    | none => k cs

/-- Try to match `r` at the start of `cs`; on success return the rest of the input. -/
def tryMatch (r : RE) (cs : List Char) : Option (List Char) := matchCont r cs some

/-- Greedy plus over a class: one mandatory character then a backtracking star. -/
def rePlus (p : Char → Bool) : RE := .seq (.cls p) (.starCls p)

/-- One step list of a global regex replacement (`String.prototype.replace`
with the `g` flag and a constant replacement): scan left to right, replacing
each leftmost non-overlapping match.  `fuel` bounds the recursion; it is set
to more than the input length, which suffices because every step consumes at
least one input character (no pattern used here matches the empty string). -/
def scanReplaceF (r : RE) (rep : List Char) : Nat → List Char → List Char
  | 0, cs => cs
  | _ + 1, [] => []
  | fuel + 1, c :: cs =>
    match tryMatch r (c :: cs) with
    | some rest =>
      if rest.length < cs.length + 1 then rep ++ scanReplaceF r rep fuel rest
      else c :: scanReplaceF r rep fuel cs
    | none => c :: scanReplaceF r rep fuel cs

/-- JavaScript global replace with a constant replacement string. -/
def jsReplaceAll (r : RE) (rep : List Char) (cs : List Char) : List Char :=
  scanReplaceF r rep (cs.length + 1) cs

/-! ## JSON values and a model of `JSON.parse` -/

/-- JSON values.  Numbers are kept as their source lexeme: the endpoint never
computes with numeric values, only passes them through. -/
inductive JSVal where
  | jnull
  | jbool (b : Bool)
  | jnum (lexeme : List Char)
  | jstr (s : List Char)
  | jarr (elems : List JSVal)
  | jobj (fields : List (List Char × JSVal))

/-- Field lookup on a JSON object's field list (property read). -/
def objGet (fs : List (List Char × JSVal)) (k : List Char) : Option JSVal :=
  match fs with
  | [] => none
  | (k2, v) :: rest => if k2 = k then some v else objGet rest k

/-- Property write with JavaScript semantics: overwrite in place when the key
exists, otherwise append. -/
def setField (fs : List (List Char × JSVal)) (k : List Char) (v : JSVal) :
    List (List Char × JSVal) :=
  match fs with
  | [] => [(k, v)]
  | (k2, w) :: rest =>
    if k2 = k then (k2, v) :: rest else (k2, w) :: setField rest k v

/-- Lookup on a JSON value: object field read, `none` on anything else. -/
def bodyGet (v : JSVal) (k : List Char) : Option JSVal :=
  match v with
  | .jobj fs => objGet fs k
  | _ => none

/-- Whether a JSON value (as an object) has a field. -/
def hasKey (v : JSVal) (k : List Char) : Bool := (bodyGet v k).isSome

/-- JSON whitespace. -/
def isJsonWs (c : Char) : Bool := c = ' ' || c = '\t' || c = '\n' || c = '\r'

/-- Skip JSON whitespace. -/
def skipWs (cs : List Char) : List Char := cs.dropWhile isJsonWs

/-- Hexadecimal digit value. -/
def hexDigit (c : Char) : Option Nat :=
  if c.isDigit then some (c.toNat - '0'.toNat)
  else if 'a' ≤ c ∧ c ≤ 'f' then some (c.toNat - 'a'.toNat + 10)
  else if 'A' ≤ c ∧ c ≤ 'F' then some (c.toNat - 'A'.toNat + 10)
  else none

/-- Escape characters accepted after a backslash in a JSON string. -/
def escChar (c : Char) : Option Char :=
  if c = '"' then some '"'
  else if c = '\\' then some '\\'
  else if c = '/' then some '/'
  else if c = 'b' then some '\x08'
  else if c = 'f' then some '\x0c'
  else if c = 'n' then some '\n'
  else if c = 'r' then some '\r'
  else if c = 't' then some '\t'
  else none

/-- Parse the body of a JSON string (after the opening quote), returning the
decoded content and the input after the closing quote.  Raw control characters
are rejected, as `JSON.parse` does. -/
def parseStrBody : List Char → Option (List Char × List Char)
  | [] => none
  | '"' :: r => some ([], r)
  | '\\' :: 'u' :: a :: b :: c :: d :: r =>
    match hexDigit a, hexDigit b, hexDigit c, hexDigit d with
    | some ha, some hb, some hc, some hd =>
      (parseStrBody r).map fun p =>
        (Char.ofNat (((ha * 16 + hb) * 16 + hc) * 16 + hd) :: p.1, p.2)
    | _, _, _, _ => none
  | '\\' :: e :: r =>
    match escChar e with
    | some c => (parseStrBody r).map fun p => (c :: p.1, p.2)
    | none => none
  | c :: r =>
    if c.toNat < 32 then none
    else (parseStrBody r).map fun p => (c :: p.1, p.2)

/-- Split a leading run of decimal digits. -/
def spanDigits (cs : List Char) : List Char × List Char :=
  (cs.takeWhile Char.isDigit, cs.dropWhile Char.isDigit)

/-- Optional exponent part of a JSON number. -/
def numExp (lex : List Char) (cs : List Char) : Option (List Char × List Char) :=
  match cs with
  | 'e' :: r =>
    let (sgn, r1) := match r with
      | '+' :: r2 => (['+'], r2)
      | '-' :: r2 => (['-'], r2)
      | _ => ([], r)
    let p := spanDigits r1
    if p.1.isEmpty then none else some (lex ++ 'e' :: sgn ++ p.1, p.2)
  | 'E' :: r =>
    let (sgn, r1) := match r with
      | '+' :: r2 => (['+'], r2)
      | '-' :: r2 => (['-'], r2)
      | _ => ([], r)
    let p := spanDigits r1
    if p.1.isEmpty then none else some (lex ++ 'E' :: sgn ++ p.1, p.2)
  | _ => some (lex, cs)

/-- Optional fraction then exponent of a JSON number. -/
def numFrac (lex : List Char) (cs : List Char) : Option (List Char × List Char) :=
  match cs with
  | '.' :: r =>
    let p := spanDigits r
    if p.1.isEmpty then none else numExp (lex ++ '.' :: p.1) p.2
  | _ => numExp lex cs

/-- JSON number lexeme: optional minus, `0` or a nonzero-led digit run,
optional fraction and exponent. -/
def parseNum (cs : List Char) : Option (List Char × List Char) :=
  let (neg, cs1) := match cs with
    | '-' :: r => (['-'], r)
    | _ => ([], cs)
  match cs1 with
  | '0' :: r => numFrac (neg ++ ['0']) r
  | c :: _ =>
    if c.isDigit then
      let p := spanDigits cs1
      numFrac (neg ++ p.1) p.2
    else none
  | [] => none

mutual

/-- Recursive-descent JSON value parser.  `fuel` bounds nesting depth; the
wrapper supplies more fuel than the input length, which is always enough. -/
def parseVal : Nat → List Char → Option (JSVal × List Char)
  | 0, _ => none
  | fuel + 1, cs =>
    match skipWs cs with
    | 'n' :: 'u' :: 'l' :: 'l' :: r => some (.jnull, r)
    | 't' :: 'r' :: 'u' :: 'e' :: r => some (.jbool true, r)
    | 'f' :: 'a' :: 'l' :: 's' :: 'e' :: r => some (.jbool false, r)
    | '"' :: r =>
      match parseStrBody r with
      | some (s, rest) => some (.jstr s, rest)
      | none => none
    | '[' :: r => parseElems fuel (skipWs r)
    | '\x7b' :: r => parseFields fuel (skipWs r)
    | other =>
      match parseNum other with
      | some (lex, rest) => some (.jnum lex, rest)
      | none => none

/-- Array elements after the opening bracket (whitespace already skipped). -/
def parseElems : Nat → List Char → Option (JSVal × List Char)
  | 0, _ => none
  | fuel + 1, cs =>
    match cs with
    | ']' :: r => some (.jarr [], r)
    | _ =>
      match parseVal fuel cs with
      | some (v, rest) => parseMoreElems fuel [v] (skipWs rest)
      | none => none

/-- Remaining array elements; `acc` holds parsed elements in reverse. -/
def parseMoreElems : Nat → List JSVal → List Char → Option (JSVal × List Char)
  | 0, _, _ => none
  | fuel + 1, acc, cs =>
    match cs with
    | ']' :: r => some (.jarr acc.reverse, r)
    | ',' :: r =>
      match parseVal fuel r with
      | some (v, rest) => parseMoreElems fuel (v :: acc) (skipWs rest)
      | none => none
    | _ => none

/-- Object fields after the opening brace (whitespace already skipped). -/
def parseFields : Nat → List Char → Option (JSVal × List Char)
  | 0, _ => none
  | fuel + 1, cs =>
    match cs with
    | '\x7d' :: r => some (.jobj [], r)
    | '"' :: r =>
      match parseStrBody r with
      | some (k, r1) =>
        match skipWs r1 with
        | ':' :: r2 =>
          match parseVal fuel r2 with
          | some (v, r3) => parseMoreFields fuel [(k, v)] (skipWs r3)
          | none => none
        | _ => none
      | none => none
    | _ => none

/-- Remaining object fields; duplicate keys overwrite, as in JavaScript. -/
def parseMoreFields : Nat → List (List Char × JSVal) → List Char →
    Option (JSVal × List Char)
  | 0, _, _ => none
  | fuel + 1, acc, cs =>
    match cs with
    | '\x7d' :: r => some (.jobj acc, r)
    | ',' :: r =>
      match skipWs r with
      | '"' :: r1 =>
        match parseStrBody r1 with
        | some (k, r2) =>
          match skipWs r2 with
          | ':' :: r3 =>
            match parseVal fuel r3 with
            | some (v, r4) => parseMoreFields fuel (setField acc k v) (skipWs r4)
            | none => none
          | _ => none
        | none => none
      | _ => none
    | _ => none

end

/-- Model of `JSON.parse`: parse one value and require only whitespace after it. -/
def jsonParse (cs : List Char) : Option JSVal :=
  match parseVal (cs.length + 1) cs with
  | some (v, rest) => if (skipWs rest).isEmpty then some v else none
  | none => none

/-! ## The enhanced HTML-to-text conversion chain (`convertToHtml` fallback) -/

/-- Regex `<tag[^>]*>` for a literal tag name. -/
def reTagOpen (t : List Char) : RE :=
  .seq (reLit ('<' :: t)) (.seq (.starCls fun c => c ≠ '>') (.lit '>'))

/-- Regex `</tag>` for a literal tag name. -/
def reTagClose (t : List Char) : RE := reLit ('<' :: '/' :: (t ++ ['>']))

/-- Regex `<br[^>]*\/?>|<br>`. -/
def reBr : RE :=
  .alt (.seq (reLit "<br".data)
          (.seq (.starCls fun c => c ≠ '>') (.seq (.opt (.lit '/')) (.lit '>'))))
       (reLit "<br>".data)

/-- Regex `<h[1-6][^>]*>`. -/
def reHeadOpen : RE :=
  .seq (reLit "<h".data)
    (.seq (.cls fun c => '1' ≤ c && c ≤ '6')
      (.seq (.starCls fun c => c ≠ '>') (.lit '>')))

/-- Regex `</h[1-6]>`. -/
def reHeadClose : RE :=
  .seq (reLit "</h".data) (.seq (.cls fun c => '1' ≤ c && c ≤ '6') (.lit '>'))

/-- Regex `<[^>]*>` (any remaining tag). -/
def reAnyTag : RE := .seq (.lit '<') (.seq (.starCls fun c => c ≠ '>') (.lit '>'))

/-- Apostrophe character, written by code point. -/
def apos : Char := Char.ofNat 39

/-- The replacement chain of the source's HTML-to-text conversion, in source
order: one `(pattern, replacement)` pair per `.replace(..., ...)` call. -/
def htmlSteps : List (RE × List Char) :=
  [ (reTagOpen "table".data, "\n--- TABLE START ---\n".data),
    (reTagClose "table".data, "\n--- TABLE END ---\n".data),
    (reTagOpen "tr".data, "\n".data),
    (reTagClose "tr".data, []),
    (reTagOpen "td".data, " | ".data),
    (reTagClose "td".data, []),
    (reTagOpen "th".data, " | ".data),
    (reTagClose "th".data, []),
    (reTagOpen "p".data, "\n".data),
    (reTagClose "p".data, []),
    (reBr, "\n".data),
    (reTagOpen "div".data, "\n".data),
    (reTagClose "div".data, []),
    (reHeadOpen, "\n### ".data),
    (reHeadClose, " ###\n".data),
    (reTagOpen "li".data, "\n- ".data),
    (reTagClose "li".data, []),
    (.alt (reTagOpen "ul".data) (.alt (reTagClose "ul".data)
       (.alt (reTagOpen "ol".data) (reTagClose "ol".data))), "\n".data),
    (.alt (reTagOpen "strong".data) (.alt (reTagClose "strong".data)
       (.alt (reTagOpen "b".data) (reTagClose "b".data))), []),
    (.alt (reTagOpen "em".data) (.alt (reTagClose "em".data)
       (.alt (reTagOpen "i".data) (reTagClose "i".data))), []),
    (reAnyTag, " ".data),
    (reLit "&nbsp;".data, " ".data),
    (reLit "&amp;".data, "&".data),
    (reLit "&lt;".data, "<".data),
    (reLit "&gt;".data, ">".data),
    (reLit "&quot;".data, "\"".data),
    (reLit "&#39;".data, [apos]),
    (reLit "&apos;".data, [apos]),
    (.seq (.lit '|') (.seq (.starCls isJsSpace) (.lit '|')), "|".data),
    (.seq (.starCls isJsSpace) (.seq (.lit '|') (.starCls isJsSpace)), " | ".data),
    (.seq (.lit '\n') (.seq (.starCls isJsSpace)
       (.seq (.lit '\n') (.seq (.starCls isJsSpace) (.lit '\n')))), "\n\n".data),
    (rePlus fun c => c = ' ' || c = '\t', " ".data),
    (.seq (.lit '\n') (rePlus fun c => c = ' '), "\n".data) ]

/-- Apply a list of global replacements in order. -/
def applySteps : List (RE × List Char) → List Char → List Char
  | [], cs => cs
  | s :: rest, cs => applySteps rest (jsReplaceAll s.1 s.2 cs)

/-- The cleaned text derived from the mammoth HTML output: the full replacement
chain followed by `trim`. -/
def cleanHtml (h : List Char) : List Char := jsTrim (applySteps htmlSteps h)

/-! ## The DOC/DOCX layered extraction -/

/-- Word character, regex class `\w`. -/
def wordChar (c : Char) : Bool := c.isAlphanum || c = '_'

/-- Count of matches of `[^\w\s.,!?@()-]` (each match is one character). -/
def specialCharCount (t : List Char) : Nat :=
  (t.filter fun c =>
    !(wordChar c || isJsSpace c || c = '.' || c = ',' || c = '!' || c = '?' ||
      c = '@' || c = '(' || c = ')' || c = '-')).length

/-- The garbled-text test `specialCharRatio > 0.5 && textContent.length < 100`,
with the exact ratio comparison expressed over naturals. -/
def ratioBad (t : List Char) : Bool :=
  decide (2 * specialCharCount t > t.length) && decide (t.length < 100)

/-- Characters kept by the plain-text salvage filter `[^\x20-\x7E\n\r\t]`. -/
def keepPrintable (c : Char) : Bool :=
  (decide (32 ≤ c.toNat) && decide (c.toNat ≤ 126)) || c = '\n' || c = '\r' || c = '\t'

/-- The plain-text salvage cleanup: replace non-printable characters by spaces,
collapse whitespace runs, trim. -/
def salvageClean (p : List Char) : List Char :=
  jsTrim (jsReplaceAll (rePlus isJsSpace) " ".data
    (p.map fun c => if keepPrintable c then c else ' '))

/-- One model invocation outcome: a reply text, or a thrown error message. -/
inductive AiOutcome where
  | ok (reply : List Char)
  | err (msg : List Char)

/-- The uploaded file as the handler sees it: declared name and MIME type. -/
structure UploadedFile where
  name : List Char
  mime : List Char

/-- External-world inputs of one request: configuration and the outputs of the
external libraries.  `rawTextResult`/`htmlResult` are the mammoth
`extractRawText`/`convertToHtml` values (`none` models the call throwing);
`utf8Content`/`base64Content` are `buffer.toString('utf-8')`/`('base64')`;
`aiOutcomes n` is the outcome of the `n`-th model invocation. -/
structure Env where
  apiKeyPresent : Bool
  utf8Content : List Char
  base64Content : List Char
  rawTextResult : Option (List Char)
  htmlResult : Option (List Char)
  aiOutcomes : Nat → AiOutcome

/-- Result of the layered DOC/DOCX extraction, with instrumentation recording
which fallback layers the control flow entered. -/
structure DocExtract where
  text : List Char
  method : List Char
  htmlInvoked : Bool
  salvageInvoked : Bool

/-- Layer 1, `mammoth.extractRawText`: its value on success, the initial empty
text (and `unknown` method tag) when the call throws. -/
def docRaw (e : Env) : List Char × List Char :=
  match e.rawTextResult with
  | some t => (t, "raw-text".data)
  | none => ([], "unknown".data)

/-- Layer 2, attempted when the current text is under 50 characters:
`mammoth.convertToHtml` followed by the cleaning chain; a throwing conversion
leaves the current text unchanged. -/
def docHtml (e : Env) (s : List Char × List Char) : List Char × List Char :=
  if s.1.length < 50 then
    match e.htmlResult with
    | some h => (cleanHtml h, "html-fallback".data)
    | none => s
  else s

/-- Layer 3, attempted when the current text is under 20 characters: the
plain-text salvage, which only replaces the current text when the decoded
buffer is longer than it. -/
def docSalvage (e : Env) (s : List Char × List Char) : List Char × List Char :=
  if s.1.length < 20 then
    if e.utf8Content.length > s.1.length then
      (salvageClean e.utf8Content, "plain-text-fallback".data)
    else s
  else s

/-- The layered extraction: the three layers in order, the second and third
gated by the length of the text produced so far. -/
def docExtract (e : Env) : DocExtract :=
  ⟨(docSalvage e (docHtml e (docRaw e))).1,
   (docSalvage e (docHtml e (docRaw e))).2,
   decide ((docRaw e).1.length < 50),
   decide ((docHtml e (docRaw e)).1.length < 20)⟩

/-! ## Allow-list validation and branch dispatch -/

/-- The MIME type allow-list. -/
def allowedTypes : List (List Char) :=
  [ "application/pdf".data,
    "application/msword".data,
    "application/vnd.openxmlformats-officedocument.wordprocessingml.document".data,
    "text/plain".data,
    "image/jpeg".data,
    "image/jpg".data,
    "image/png".data ]

/-- The extension allow-list. -/
def allowedExtensions : List (List Char) :=
  ["pdf".data, "doc".data, "docx".data, "txt".data, "jpeg".data, "jpg".data, "png".data]

/-- `fileName.toLowerCase().split('.').pop()`. -/
def fileExtensionOf (name : List Char) : List Char := lastDotSegment (jsLower name)

/-- MIME-type check against the allow-list. -/
def isValidMimeType (f : UploadedFile) : Bool := allowedTypes.contains f.mime

/-- Extension check: `fileExtension && allowedExtensions.includes(fileExtension)`
(an empty extension string is falsy). -/
def isValidExtension (f : UploadedFile) : Bool :=
  let e := fileExtensionOf f.name
  !e.isEmpty && allowedExtensions.contains e

/-- Both validation checks fail: the rejection condition of the allow-list. -/
def bothFail (f : UploadedFile) : Bool := !isValidMimeType f && !isValidExtension f

/-- The processing branch the if/else chain dispatches to. -/
inductive Branch where
  | image
  | text
  | doc
  | unsupported
deriving DecidableEq

/-- Branch dispatch, in source order: images and PDFs by MIME type; text by
MIME type or extension; DOC/DOCX by MIME type or extension; otherwise the
`Unsupported file type` rejection. -/
def branchOf (f : UploadedFile) : Branch :=
  if startsWithL f.mime "image/".data || f.mime == "application/pdf".data then .image
  else if f.mime == "text/plain".data || fileExtensionOf f.name == "txt".data then .text
  else if f.mime == "application/msword".data ||
      f.mime == "application/vnd.openxmlformats-officedocument.wordprocessingml.document".data ||
      fileExtensionOf f.name == "doc".data || fileExtensionOf f.name == "docx".data then .doc
  else .unsupported

/-! ## Prompts -/

/-- Modelled stand-in for the source's fixed JSON-schema instruction block
(the large template literal appended to every prompt).  Its exact prose is a
constant the properties below never inspect, so it is abbreviated here. -/
def promptSchema : List Char :=
  ("\nJSON structure with fields: name, email, phone, dob, location, " ++
   "contactDetails, socialLinks, experience, projects, skills, education, " ++
   "secondaryEducation, higherSecondaryEducation, certifications, summary, " ++
   "with detailed skill-extraction instructions. " ++
   "Return only the JSON object, no additional text or formatting.").data

/-- Prompt of the image/PDF branch. -/
def imagePromptOf (f : UploadedFile) : List Char :=
  "Extract all information from this resume ".data ++
  (if f.mime == "application/pdf".data then "PDF".data else "image".data) ++
  " and format it as JSON with the following structure:".data

/-- Prompt of the plain-text branch, embedding the decoded file content. -/
def textPromptOf (t : List Char) : List Char :=
  ("Extract all information from this resume text and format it as JSON " ++
   "with the following structure:\n\nResume content:\n").data ++ t ++ "\n\n".data

/-- Prompt of the DOC/DOCX branch, embedding the extraction method and text. -/
def docPromptOf (method t : List Char) : List Char :=
  "Extract all information from this resume document (".data ++ method ++
  (" extraction from DOCX/DOC format) and format it as JSON with the " ++
   "following structure:\n\nResume content:\n").data ++ t ++ "\n\n".data

/-! ## The retry loop -/

/-- Retryable-failure test of the source: overload, 503, rate limit, or
temporary unavailability, searched in the lowercased message. -/
def isTransientErr (msg : List Char) : Bool :=
  let m := jsLower msg
  containsSub m "overloaded".data || containsSub m "503".data ||
  containsSub m "rate limit".data || containsSub m "temporarily unavailable".data

/-- The fixed retry budget. -/
def maxRetries : Nat := 3

/-- Outcome of the retry loop, instrumented with the number of model
invocations actually made. -/
structure RetryResult where
  outcome : Except (List Char) (List Char)
  attempts : Nat

/-- The retry loop body.  `rem` is the number of remaining permitted loop
iterations (`maxRetries + 1 - retryCount`, so the `while` guard
`retryCount <= maxRetries` is `rem > 0`); `rc` is `retryCount`.  On failure the
count is incremented and the loop continues only for a transient error within
budget; otherwise the error propagates.  The `rem = 0` case models the
`if (!result) throw` check after the loop (unreachable). -/
def retryAux (o : Nat → AiOutcome) : Nat → Nat → RetryResult
  | 0, _ => ⟨.error "Failed to get AI response after all retry attempts".data, 0⟩
  | rem + 1, rc =>
    match o rc with
    | .ok reply => ⟨.ok reply, 1⟩
    | .err msg =>
      if isTransientErr msg && decide (rc + 1 ≤ maxRetries) then
        let r := retryAux o rem (rc + 1)
        ⟨r.outcome, r.attempts + 1⟩
      else ⟨.error msg, 1⟩

/-- The retry loop as entered by the handler: `retryCount = 0`. -/
def retryLoop (o : Nat → AiOutcome) : RetryResult := retryAux o (maxRetries + 1) 0

/-! ## Responses -/

/-- An HTTP response: status code and JSON body. -/
structure Response where
  status : Nat
  body : JSVal

/-- The empty extracted-data skeleton used by every fallback response. -/
def emptySkeleton : JSVal :=
  .jobj [ ("name".data, .jstr []), ("email".data, .jstr []),
          ("phone".data, .jstr []), ("skills".data, .jarr []),
          ("experience".data, .jarr []), ("education".data, .jarr []),
          ("summary".data, .jstr []) ]

/-- The allow-list rejection (status 400). -/
def invalidTypeResp (f : UploadedFile) : Response :=
  ⟨400, .jobj [("error".data, .jstr
    ("Invalid file type. Supported formats: PDF, DOC, DOCX, TXT, JPEG, JPG, PNG. Received: ".data
      ++ f.mime ++ " (".data ++ fileExtensionOf f.name ++ ")".data))]⟩

/-- Missing API key (status 500). -/
def configErrResp : Response :=
  ⟨500, .jobj [("error".data,
    .jstr "AI processing not configured. Please check API key configuration.".data)]⟩

/-- The dispatch chain's final `else` rejection (status 400). -/
def unsupportedResp : Response :=
  ⟨400, .jobj [("error".data, .jstr "Unsupported file type".data)]⟩

/-- Message of the below-10-characters unreadable-document error. -/
def unreadableMsg : List Char :=
  ("Document appears to be empty or completely unreadable. Please try saving " ++
   "the document in a different format (PDF recommended) or ensure the " ++
   "document contains readable text.").data

/-- Message of the garbled-content error. -/
def corruptedMsg : List Char :=
  ("Document content appears to be corrupted or in an unsupported encoding. " ++
   "Please try converting to PDF format.").data

/-- The document-parsing fallback response (status 200, success-shaped). -/
def docFallbackResp (f : UploadedFile) (m : List Char) : Response :=
  ⟨200, .jobj [ ("success".data, .jbool true), ("fileName".data, .jstr f.name),
    ("extractedData".data, emptySkeleton), ("aiProcessed".data, .jbool false),
    ("message".data, .jstr ("Document parsing failed: ".data ++ m ++
      ". Please fill the form manually or try converting your document to PDF format.".data)),
    ("parseError".data, .jbool true) ]⟩

/-- The overloaded-AI fallback response (status 200, success-shaped). -/
def overloadedResp (f : UploadedFile) : Response :=
  ⟨200, .jobj [ ("success".data, .jbool true), ("fileName".data, .jstr f.name),
    ("extractedData".data, emptySkeleton), ("aiProcessed".data, .jbool false),
    ("parseError".data, .jbool true),
    ("message".data, .jstr ("AI service is temporarily overloaded due to high demand. Your file \"".data
      ++ f.name ++
      "\" was uploaded successfully. Please fill the form manually, or try uploading again in 2-3 minutes for auto-parsing.".data)),
    ("retryRecommended".data, .jbool true),
    ("estimatedRetryTime".data, .jstr "2-3 minutes".data) ]⟩

/-- The quota-exceeded fallback response (status 200, success-shaped). -/
def quotaResp (f : UploadedFile) : Response :=
  ⟨200, .jobj [ ("success".data, .jbool true), ("fileName".data, .jstr f.name),
    ("extractedData".data, emptySkeleton), ("aiProcessed".data, .jbool false),
    ("parseError".data, .jbool true),
    ("message".data, .jstr ("AI service quota exceeded for today. Your file \"".data
      ++ f.name ++
      "\" was uploaded successfully. Please fill the form manually. Auto-parsing will be available again tomorrow.".data)),
    ("retryRecommended".data, .jbool false),
    ("quotaExceeded".data, .jbool true) ]⟩

/-- The invalid-credential rejection (status 401). -/
def authResp : Response :=
  ⟨401, .jobj [ ("error".data, .jstr "AI service configuration error. Please contact support.".data),
    ("details".data, .jstr "Invalid or missing API key".data) ]⟩

/-- The generic AI-error fallback response (status 200, success-shaped). -/
def genericAiResp (f : UploadedFile) : Response :=
  ⟨200, .jobj [ ("success".data, .jbool true), ("fileName".data, .jstr f.name),
    ("extractedData".data, emptySkeleton), ("aiProcessed".data, .jbool false),
    ("parseError".data, .jbool true),
    ("message".data, .jstr "AI processing encountered an error. File uploaded successfully - please fill the form manually.".data),
    ("error".data, .jstr "AI processing failed - manual entry available".data) ]⟩

/-- The success response carrying the parsed extracted data. -/
def successResp (f : UploadedFile) (data : JSVal) : Response :=
  ⟨200, .jobj [ ("success".data, .jbool true), ("fileName".data, .jstr f.name),
    ("extractedData".data, data), ("aiProcessed".data, .jbool true) ]⟩

/-! ## The AI-reply parse pipeline -/

/-- Regex of the global fence strip: three backticks with optional `json` tag
and adjacent newline, either side. -/
def reFence : RE :=
  .alt (.seq (reLit "```json".data) (.opt (.lit '\n')))
       (.seq (.opt (.lit '\n')) (reLit "```".data))

/-- Regex of the anchored leading-fence strip `^```[a-zA-Z]*\n?`. -/
def reFenceLead : RE :=
  .seq (reLit "```".data) (.seq (.starCls Char.isAlpha) (.opt (.lit '\n')))

/-- Strip a leading code fence in place (the pattern is anchored at the start). -/
def stripLead (cs : List Char) : List Char :=
  match tryMatch reFenceLead cs with
  | some rest => rest
  | none => cs

/-- Strip a trailing `\n?`` ``` `` anchored at the end: the only positions where
the pattern can match are the final three or four characters. -/
def stripTail (cs : List Char) : List Char :=
  if "\n```".data.isSuffixOf cs then cs.take (cs.length - 4)
  else if "```".data.isSuffixOf cs then cs.take (cs.length - 3)
  else cs

/-- The cleaned reply text: global fence strip, trim, and the extra anchored
strip applied when the text still starts with a fence. -/
def cleanedText (reply : List Char) : List Char :=
  let t1 := jsTrim (jsReplaceAll reFence [] reply)
  if startsWithL t1 "```".data then stripTail (stripLead t1) else t1

/-- Longest prefix of the input ending at the last occurrence of `c`. -/
def takeThroughLast (c : Char) : List Char → Option (List Char)
  | [] => none
  | x :: xs =>
    match takeThroughLast c xs with
    | some t => some (x :: t)
    | none => if x = c then some [x] else none

/-- The greedy match `text.match(/\x7b[\s\S]*\x7d/)`: from the first left brace
to the last right brace after it. -/
def braceSpan : List Char → Option (List Char)
  | [] => none
  | x :: xs =>
    if x = '\x7b' then (takeThroughLast '\x7d' xs).map fun t => '\x7b' :: t
    else braceSpan xs

/-- Whether the parsed value already carries a `skills` array. -/
def skillsOk (fs : List (List Char × JSVal)) : Bool :=
  match objGet fs "skills".data with
  | some (.jarr _) => true
  | _ => false

/-- The skills normalisation on an object's fields: a missing or non-array
`skills` property is overwritten with the empty array. -/
def fixSkillsFields (fs : List (List Char × JSVal)) : List (List Char × JSVal) :=
  if skillsOk fs then fs else setField fs "skills".data (.jarr [])

/-- The `extractedData.skills` validation applied after the direct parse.
On an object it normalises the field.  On an array the property write succeeds
but a named property of an array is dropped by the JSON serialisation of the
response, so the observable value is unchanged.  On `null` or a primitive the
property access/write throws (strict mode), landing in the parse-error catch:
modelled as `none`. -/
def fixSkills : JSVal → Option JSVal
  | .jobj fs => some (.jobj (fixSkillsFields fs))
  | .jarr xs => some (.jarr xs)
  | _ => none

/-- Placeholder for the JavaScript engine's `JSON.parse` error message, which
the 500 responses embed as `details`; its exact text is engine-specific and
outside the model. -/
def modeledParseErrMsg : List Char := "Unexpected token in JSON".data

/-- The repair-failure 500 response (span found but unparseable). -/
def parseFail1 (t : List Char) : Response :=
  ⟨500, .jobj [ ("error".data, .jstr "Failed to parse AI response".data),
    ("rawResponse".data, .jstr (t.take 1000)),
    ("details".data, .jstr modeledParseErrMsg) ]⟩

/-- The no-JSON-found 500 response. -/
def parseFail2 (t : List Char) : Response :=
  ⟨500, .jobj [ ("error".data, .jstr "Failed to parse AI response - no valid JSON found".data),
    ("rawResponse".data, .jstr (t.take 1000)),
    ("details".data, .jstr modeledParseErrMsg) ]⟩

/-- The parse-error catch: extract the greedy brace span and parse it; note
that no skills normalisation happens on this path. -/
def repairParse (t : List Char) : Except Response JSVal :=
  match braceSpan t with
  | some span =>
    match jsonParse span with
    | some v => .ok v
    | none => .error (parseFail1 t)
  | none => .error (parseFail2 t)

/-- The whole reply-parsing pipeline: clean the text, try the direct parse with
skills normalisation, and fall back to the brace-span repair parse. -/
def parsePipeline (reply : List Char) : Except Response JSVal :=
  let t := cleanedText reply
  match jsonParse t with
  | some v =>
    match fixSkills v with
    | some v2 => .ok v2
    | none => repairParse t
  | none => repairParse t

/-! ## The POST handler -/

/-- The outer `catch (aiError)` dispatch on the thrown message. -/
def aiErrorResp (f : UploadedFile) (msg : List Char) : Response :=
  let m := jsLower msg
  if containsSub m "overloaded".data || containsSub m "503".data then overloadedResp f
  else if containsSub m "quota".data || containsSub m "limit".data then quotaResp f
  else if containsSub m "api key".data || containsSub m "unauthorized".data then authResp
  else genericAiResp f

/-- Instrumentation of one request: which branch was dispatched, which
extraction layers ran, whether the model was invoked and with what payload,
and how many invocations the retry loop made. -/
structure Trace where
  branch : Option Branch
  htmlInvoked : Bool
  salvageInvoked : Bool
  aiInvoked : Bool
  promptText : List Char
  inlineData : Option (List Char × List Char)
  attempts : Nat

/-- Trace of a request rejected before dispatch. -/
def emptyTrace : Trace := ⟨none, false, false, false, [], none, 0⟩

/-- The response produced after the retry loop: a thrown error goes to the
`aiError` catch dispatch, a reply goes through the parse pipeline. -/
def runAIResp (f : UploadedFile) (rr : RetryResult) : Response :=
  match rr.outcome with
  | .error msg => aiErrorResp f msg
  | .ok reply =>
    match parsePipeline reply with
    | .error r => r
    | .ok data => successResp f data

/-- The model invocation, retry loop, reply parsing and response assembly. -/
def runAI (f : UploadedFile) (e : Env) (prompt : List Char)
    (inl : Option (List Char × List Char)) (hInv sInv : Bool) (br : Branch) :
    Response × Trace :=
  let rr := retryLoop e.aiOutcomes
  (runAIResp f rr, ⟨some br, hInv, sInv, true, prompt, inl, rr.attempts⟩)

/-- The POST handler: allow-list validation, API-key check, branch dispatch
(with the layered DOC/DOCX extraction and its fallback), model invocation with
retries, and reply parsing.  The outer catch of the source handles request
decoding failures that precede everything modelled here. -/
def POST (f : UploadedFile) (e : Env) : Response × Trace :=
  if bothFail f then (invalidTypeResp f, emptyTrace)
  else if !e.apiKeyPresent then (configErrResp, emptyTrace)
  else
    match branchOf f with
    | .image =>
      runAI f e (imagePromptOf f ++ promptSchema)
        (some (e.base64Content, f.mime)) false false .image
    | .text =>
      runAI f e (textPromptOf e.utf8Content ++ promptSchema) none false false .text
    | .doc =>
      let d := docExtract e
      if d.text.length < 10 then
        (docFallbackResp f unreadableMsg, ⟨some .doc, d.htmlInvoked, d.salvageInvoked, false, [], none, 0⟩)
      else if ratioBad d.text then
        (docFallbackResp f corruptedMsg, ⟨some .doc, d.htmlInvoked, d.salvageInvoked, false, [], none, 0⟩)
      else
        runAI f e (docPromptOf d.method d.text ++ promptSchema) none
          d.htmlInvoked d.salvageInvoked .doc
    | .unsupported => (unsupportedResp, ⟨some .unsupported, false, false, false, [], none, 0⟩)

/-! ## The client upload hook (`useFileUpload`) -/

/-- A file as the client hook sees it. -/
structure ClientFile where
  name : List Char

/-- Outcome of one `fetch` of the upload endpoint: an OK response with a JSON
body, a non-OK response with a JSON body, or a thrown error (network failure
or body-decoding failure) with its message. -/
inductive FetchOutcome where
  | ok (body : JSVal)
  | httpErr (body : JSVal)
  | netErr (msg : List Char)

/-- Whether a number lexeme denotes zero (JavaScript numeric truthiness). -/
def numIsZero (lex : List Char) : Bool :=
  (lex.takeWhile fun c => c ≠ 'e' && c ≠ 'E').all fun c => !c.isDigit || c = '0'

/-- JavaScript truthiness of a JSON value. -/
def jsTruthy : JSVal → Bool
  | .jnull => false
  | .jbool b => b
  | .jnum lex => !numIsZero lex
  | .jstr s => !s.isEmpty
  | .jarr _ => true
  | .jobj _ => true

mutual

/-- JavaScript `String(v)` coercion of a JSON value (the `Error` message
constructor): strings pass through, arrays join with commas, objects render
as `[object Object]`. -/
def jsToStr : JSVal → List Char
  | .jnull => "null".data
  | .jbool true => "true".data
  | .jbool false => "false".data
  | .jnum lex => lex
  | .jstr s => s
  | .jobj _ => "[object Object]".data
  | .jarr xs => jsToStrList xs

/-- `Array.prototype.join(',')` with `null` rendering empty. -/
def jsToStrList : List JSVal → List Char
  | [] => []
  | [.jnull] => []
  | [v] => jsToStr v
  | .jnull :: rest => ',' :: jsToStrList rest
  | v :: rest => jsToStr v ++ ',' :: jsToStrList rest

end

/-- Default error text of the hook. -/
def uploadFailedMsg : List Char := "Upload failed".data

/-- The message of `new Error(error.error || 'Upload failed')` for a non-OK
response body. -/
def errOf (body : JSVal) : List Char :=
  match bodyGet body "error".data with
  | some v => if jsTruthy v then jsToStr v else uploadFailedMsg
  | none => uploadFailedMsg

/-- The per-file captured-failure element of the batch result. -/
def failResult (f : ClientFile) (msg : List Char) : JSVal :=
  .jobj [ ("success".data, .jbool false), ("fileName".data, .jstr f.name),
    ("filePath".data, .jstr []), ("extractedData".data, .jobj []),
    ("error".data, .jstr msg) ]

/-- One upload task of the multi-file path: an OK response resolves to its
body; a non-OK response or a thrown error is captured as a failure element. -/
def uploadOne (f : ClientFile) (out : FetchOutcome) : JSVal :=
  match out with
  | .ok body => body
  | .httpErr body => failResult f (errOf body)
  | .netErr msg => failResult f msg

/-- `uploadMultipleFiles`: one task per file; `Promise.all` aggregates the
results indexed by input order regardless of completion order, which the map
over the enumerated list captures.  `outs n` is the fetch outcome of the
`n`-th file's request.  (The progress-map state is UI animation, not part of
the result.) -/
def uploadMultipleFiles (outs : Nat → FetchOutcome) (files : List ClientFile) :
    List JSVal :=
  files.enum.map fun p => uploadOne p.2 (outs p.1)

/-! ## Derived predicates used in the statements -/

/-- Whether a response body is the allow-list invalid-file-type rejection,
recognised by its distinctive error-message opening. -/
def isInvalidTypeBody (v : JSVal) : Bool :=
  match bodyGet v "error".data with
  | some (.jstr m) => startsWithL m "Invalid file type.".data
  | _ => false

/-! ## Concrete inputs used by the witnesses and counterexamples -/

/-- A PDF upload (valid MIME type and extension). -/
def filePdf : UploadedFile := ⟨"resume.pdf".data, "application/pdf".data⟩

/-- A DOCX upload with its precise MIME type. -/
def fileDocx : UploadedFile :=
  ⟨"resume.docx".data,
   "application/vnd.openxmlformats-officedocument.wordprocessingml.document".data⟩

/-- A PNG-named upload with a generic MIME type: only the extension check
passes, and the dispatch chain has no branch for it. -/
def fileMislabeledPng : UploadedFile := ⟨"x.png".data, "application/octet-stream".data⟩

/-- An upload failing both the MIME-type and the extension check. -/
def fileNoType : UploadedFile := ⟨"x.exe".data, "application/zip".data⟩

/-- A `.txt`-named upload declaring an image MIME type. -/
def fileTxtImageMime : UploadedFile := ⟨"a.txt".data, "image/png".data⟩

/-- A plain-text upload. -/
def fileTxt : UploadedFile := ⟨"a.txt".data, "text/plain".data⟩

/-- A baseline environment: key present, empty buffers, every model
invocation throwing a non-transient error. -/
def baseEnv : Env := ⟨true, [], [], none, none, fun _ => .err "boom".data⟩

/-- The baseline environment with every model invocation answering `r`. -/
def envWithReply (r : List Char) : Env := { baseEnv with aiOutcomes := fun _ => .ok r }

/-- The baseline environment with a base64 payload. -/
def envB64 : Env := { baseEnv with base64Content := "QUJD".data }

/-- A transient error message of the overloaded kind. -/
def overloadMsg : List Char := "The model is overloaded".data

/-- A minimal reply parsing to an object with an empty skills array. -/
def skillsReply : List Char := "\x7b\"skills\":[]\x7d".data

/-- Model outcomes: three overload failures, then success. -/
def retryOkOuts : Nat → AiOutcome :=
  fun n => if n < 3 then .err overloadMsg else .ok skillsReply

/-- Environment whose model fails three times then succeeds. -/
def retryOkEnv : Env := { baseEnv with aiOutcomes := retryOkOuts }

/-- Environment whose model always fails with the overloaded error. -/
def overloadEnv : Env := { baseEnv with aiOutcomes := fun _ => .err overloadMsg }

/-- A fenced reply whose trailing prose itself contains braces. -/
def c4BadReply : List Char :=
  "```json\n\x7b\"a\":1\x7d\n```\nNote: braces \x7bx\x7d here.".data

/-- A fenced reply with brace-free trailing prose. -/
def c4GoodReply : List Char :=
  "```json\n\x7b\"name\":\"Ada\"\x7d\n``` trailing prose here.".data

/-- The member list of the JSON object inside `c4GoodReply`. -/
def c4Mid : List Char := "\"name\":\"Ada\"".data

/-- The trailing prose of `c4GoodReply`. -/
def c4Prose : List Char := " trailing prose here.".data

/-- The parsed value of the JSON object inside `c4GoodReply`. -/
def c4Val : JSVal := .jobj [("name".data, .jstr "Ada".data)]

/-- The reply consisting of an empty JSON object. -/
def emptyReply : List Char := "\x7b\x7d".data

/-- A reply where the direct parse fails but the repair span parses, with no
skills field. -/
def c8Reply : List Char := "note: \x7b\"name\":\"A\"\x7d".data

/-- A DOCX environment where every extraction layer yields under 10 characters. -/
def docEnvSmall : Env :=
  { baseEnv with
    rawTextResult := some "ab".data
    htmlResult := some "<p>x</p>".data
    utf8Content := "abc".data }

/-- A DOCX environment with a long raw-text extraction. -/
def docEnvRawLong : Env := { baseEnv with rawTextResult := some (List.replicate 60 'a') }

/-- A DOCX environment with short raw text but a substantial HTML conversion. -/
def docEnvHtmlGood : Env :=
  { baseEnv with
    rawTextResult := some "short".data
    htmlResult := some "<p>This is a longer resume paragraph</p>".data }

/-- First client file of the batch scenario. -/
def clientA : ClientFile := ⟨"a.pdf".data⟩

/-- Second client file of the batch scenario. -/
def clientB : ClientFile := ⟨"b.pdf".data⟩

/-- Third client file of the batch scenario. -/
def clientC : ClientFile := ⟨"c.pdf".data⟩

/-- Response body of the first file's successful upload. -/
def bodyA : JSVal :=
  .jobj [("success".data, .jbool true), ("fileName".data, .jstr "a.pdf".data)]

/-- Response body of the third file's successful upload. -/
def bodyC : JSVal :=
  .jobj [("success".data, .jbool true), ("fileName".data, .jstr "c.pdf".data)]

/-- Error body of the second file's failed upload. -/
def errBody : JSVal := .jobj [("error".data, .jstr "boom".data)]

/-- Fetch outcomes of the three-file batch: the middle file fails. -/
def c9Outs : Nat → FetchOutcome :=
  fun n => if n = 0 then .ok bodyA else if n = 1 then .httpErr errBody else .ok bodyC

/-! ## Helper lemmas -/

/-- A message mentioning `overloaded` passes the transient-error test. -/
theorem isTransient_of_overloaded (m : List Char)
    (h : containsSub (jsLower m) "overloaded".data = true) : isTransientErr m = true := by
  simp [isTransientErr, h]

/-- Every branch of the `aiError` dispatch other than the credential one is a
success-shaped 200 carrying the empty skeleton. -/
theorem aiErrorResp_fallback (f : UploadedFile) (msg : List Char)
    (hak : containsSub (jsLower msg) "api key".data = false)
    (hun : containsSub (jsLower msg) "unauthorized".data = false) :
    (aiErrorResp f msg).status = 200 ∧
    bodyGet (aiErrorResp f msg).body "success".data = some (.jbool true) ∧
    bodyGet (aiErrorResp f msg).body "aiProcessed".data = some (.jbool false) ∧
    bodyGet (aiErrorResp f msg).body "extractedData".data = some emptySkeleton := by
  simp only [aiErrorResp]
  split
  · exact ⟨rfl, rfl, rfl, rfl⟩
  · split
    · exact ⟨rfl, rfl, rfl, rfl⟩
    · split
      · next hcond => rw [hak, hun] at hcond; exact absurd hcond (by decide)
      · exact ⟨rfl, rfl, rfl, rfl⟩

/-- Both parse-failure responses are 500s without `aiProcessed`,
`extractedData`, or the invalid-file-type error message. -/
theorem parsePipeline_error_shape (reply : List Char) (r : Response)
    (h : parsePipeline reply = .error r) :
    r.status = 500 ∧ bodyGet r.body "aiProcessed".data = none ∧
    bodyGet r.body "extractedData".data = none ∧
    isInvalidTypeBody r.body = false := by
  revert h
  simp only [parsePipeline, repairParse]
  repeat' split
  all_goals intro h
  all_goals first
    | exact Except.noConfusion h
    | (cases h; exact ⟨rfl, rfl, rfl, rfl⟩)

/-- After the model call, any response flagged `aiProcessed := false` carries
the empty extracted-data skeleton. -/
theorem runAIResp_fallback_shape (f : UploadedFile) (rr : RetryResult)
    (h : bodyGet (runAIResp f rr).body "aiProcessed".data = some (.jbool false)) :
    bodyGet (runAIResp f rr).body "extractedData".data = some emptySkeleton := by
  revert h
  simp only [runAIResp, aiErrorResp]
  repeat' split
  all_goals intro h
  all_goals first
    | rfl
    | exact Option.noConfusion h
    | exact Option.noConfusion h fun h2 => JSVal.noConfusion h2 fun h3 => Bool.noConfusion h3
    | skip
  all_goals rename_i heq
  all_goals rw [(parsePipeline_error_shape _ _ heq).2.1] at h
  all_goals exact Option.noConfusion h

/-- No response produced after the model call carries the invalid-file-type
error message. -/
theorem runAIResp_notInvalid (f : UploadedFile) (rr : RetryResult) :
    isInvalidTypeBody (runAIResp f rr).body = false := by
  simp only [runAIResp, aiErrorResp]
  repeat' split
  all_goals first
    | rfl
    | skip
  all_goals rename_i heq
  all_goals exact (parsePipeline_error_shape _ _ heq).2.2.2

/-- Without an occurrence of `c`, there is no prefix ending at it. -/
theorem takeThroughLast_none (c : Char) (ys : List Char) (h : c ∉ ys) :
    takeThroughLast c ys = none := by
  induction ys with
  | nil => rfl
  | cons y ys ih =>
    simp only [List.mem_cons, not_or] at h
    simp [takeThroughLast, ih h.2, Ne.symm h.1]

/-- The prefix through the last occurrence of `c`, when everything after the
displayed occurrence is free of it. -/
theorem takeThroughLast_append (c : Char) (xs ys : List Char) (h : c ∉ ys) :
    takeThroughLast c (xs ++ c :: ys) = some (xs ++ [c]) := by
  induction xs with
  | nil => simp [takeThroughLast, takeThroughLast_none c ys h]
  | cons x xs ih => simp [takeThroughLast, ih]

/-- On an object followed by brace-free prose, the greedy span is exactly the
object. -/
theorem braceSpan_decomp (mid prose : List Char) (h : '\x7d' ∉ prose) :
    braceSpan (('\x7b' :: mid ++ ['\x7d']) ++ prose) = some ('\x7b' :: mid ++ ['\x7d']) := by
  have heq : ('\x7b' :: mid ++ ['\x7d']) ++ prose = '\x7b' :: (mid ++ '\x7d' :: prose) := by
    simp
  rw [heq]
  simp [braceSpan, takeThroughLast_append '\x7d' mid prose h]

/-- Reading back a freshly written property. -/
theorem objGet_setField_self (fs : List (List Char × JSVal)) (k : List Char) (v : JSVal) :
    objGet (setField fs k v) k = some v := by
  induction fs with
  | nil => simp [setField, objGet]
  | cons p rest ih =>
    by_cases h : p.1 = k
    · simp [setField, objGet, h]
    · simp [setField, objGet, h, ih]

/-- The normalised field list always carries a skills array. -/
theorem skillsOk_fix (fs : List (List Char × JSVal)) :
    skillsOk (fixSkillsFields fs) = true := by
  unfold fixSkillsFields
  split
  · next h => exact h
  · simp [skillsOk, objGet_setField_self]

/-- The first layer's text is the raw extraction result (empty on a throw). -/
theorem docRaw_fst (e : Env) : (docRaw e).1 = e.rawTextResult.getD [] := by
  cases hr : e.rawTextResult <;> simp [docRaw, hr]

/-- The HTML layer either leaves the state alone or produces the cleaned
conversion of a successful `convertToHtml`. -/
theorem docHtml_cases (e : Env) (s : List Char × List Char) :
    docHtml e s = s ∨
    ∃ h, e.htmlResult = some h ∧ docHtml e s = (cleanHtml h, "html-fallback".data) := by
  unfold docHtml
  split_ifs
  · cases hh : e.htmlResult with
    | none => exact Or.inl rfl
    | some h => exact Or.inr ⟨h, rfl, rfl⟩
  · exact Or.inl rfl

/-- The salvage layer either leaves the state alone or produces the cleaned
decoded buffer. -/
theorem docSalvage_cases (e : Env) (s : List Char × List Char) :
    docSalvage e s = s ∨
    docSalvage e s = (salvageClean e.utf8Content, "plain-text-fallback".data) := by
  unfold docSalvage
  split_ifs <;> simp

/-- The final extracted text is one of the three layers' outputs. -/
theorem docExtract_text_cases (e : Env) :
    (docExtract e).text = e.rawTextResult.getD [] ∨
    (∃ h, e.htmlResult = some h ∧ (docExtract e).text = cleanHtml h) ∨
    (docExtract e).text = salvageClean e.utf8Content := by
  have h1 := docRaw_fst e
  have htext : (docExtract e).text = (docSalvage e (docHtml e (docRaw e))).1 := rfl
  rcases docSalvage_cases e (docHtml e (docRaw e)) with hs | hs
  · rcases docHtml_cases e (docRaw e) with hh | ⟨h, hh, hh2⟩
    · left
      rw [htext, hs, hh, h1]
    · right; left
      exact ⟨h, hh, by rw [htext, hs, hh2]⟩
  · right; right
    rw [htext, hs]

/-- When every layer's yield is under 10 characters, so is the final text. -/
theorem docExtract_small (e : Env)
    (hraw : (e.rawTextResult.getD []).length < 10)
    (hhtml : ∀ h, e.htmlResult = some h → (cleanHtml h).length < 10)
    (hsal : (salvageClean e.utf8Content).length < 10) :
    (docExtract e).text.length < 10 := by
  rcases docExtract_text_cases e with hc | ⟨h, hh, hc⟩ | hc <;> rw [hc]
  · exact hraw
  · exact hhtml h hh
  · exact hsal

/-! ## Claim theorems -/

/-- C1, counterexample: the PDF upload passes the allow-list, the model call
itself succeeds, but the reply cannot be parsed as JSON; the handler then
returns HTTP 500 — an error status for an AI-side failure, contradicting the
claim that parse failures never produce an error status. -/
theorem c1_counterexample :
    bothFail filePdf = false ∧
    (POST filePdf (envWithReply "no json here".data)).1.status = 500 := ⟨rfl, rfl⟩

/-- C1, amended: for an accepted file that reaches the model call, a thrown
model error whose message mentions neither `api key` nor `unauthorized` yields
a 200 success-shaped response with `aiProcessed:false` and the empty
extracted-data skeleton; reply-parse failures (see the counterexample) and
credential errors are excluded. -/
theorem c1_theorem (f : UploadedFile) (e : Env) (msg : List Char)
    (hbf : bothFail f = false) (hkey : e.apiKeyPresent = true)
    (hbr : branchOf f = .image ∨ branchOf f = .text ∨
      (branchOf f = .doc ∧ 10 ≤ (docExtract e).text.length ∧
       ratioBad (docExtract e).text = false))
    (herr : (retryLoop e.aiOutcomes).outcome = .error msg)
    (hak : containsSub (jsLower msg) "api key".data = false)
    (hun : containsSub (jsLower msg) "unauthorized".data = false) :
    (POST f e).1.status = 200 ∧
    bodyGet (POST f e).1.body "success".data = some (.jbool true) ∧
    bodyGet (POST f e).1.body "aiProcessed".data = some (.jbool false) ∧
    bodyGet (POST f e).1.body "extractedData".data = some emptySkeleton := by
  have hresp : (POST f e).1 = aiErrorResp f msg := by
    rcases hbr with hbr | hbr | ⟨hbr, hlen, hratio⟩
    · simp [POST, hbf, hkey, hbr, runAI, runAIResp, herr]
    · simp [POST, hbf, hkey, hbr, runAI, runAIResp, herr]
    · simp [POST, hbf, hkey, hbr, runAI, runAIResp, herr, Nat.not_lt.mpr hlen, hratio]
  rw [hresp]
  exact aiErrorResp_fallback f msg hak hun

/-- C1, witness: the PDF upload with a non-transient, non-credential model
failure receives the 200 success-shaped fallback. -/
theorem c1_witness :
    (POST filePdf baseEnv).1.status = 200 ∧
    bodyGet (POST filePdf baseEnv).1.body "success".data = some (.jbool true) ∧
    bodyGet (POST filePdf baseEnv).1.body "aiProcessed".data = some (.jbool false) ∧
    bodyGet (POST filePdf baseEnv).1.body "extractedData".data = some emptySkeleton :=
  c1_theorem filePdf baseEnv "boom".data rfl rfl (Or.inl rfl) rfl rfl rfl

/-- C2, counterexample: a `.png`-named file with a generic MIME type passes
the allow-list through its extension, yet still receives a 400 (`Unsupported
file type`) from the dispatch chain and no extraction attempt is made —
contradicting the claim that passing either check precludes an
invalid-file-type 4xx. -/
theorem c2_counterexample :
    bothFail fileMislabeledPng = false ∧
    (POST fileMislabeledPng baseEnv).1.status = 400 ∧
    (POST fileMislabeledPng baseEnv).2.aiInvoked = false := ⟨rfl, rfl, rfl⟩

/-- C2, amended: the allow-list 400 (recognised by its `Invalid file type.`
message) is returned exactly when both checks fail, and then no extraction is
attempted; but a file passing only one check can still receive the dispatch
chain's separate 400 `Unsupported file type` with no extraction attempt. -/
theorem c2_theorem :
    (∀ (f : UploadedFile) (e : Env),
      bothFail f = isInvalidTypeBody (POST f e).1.body) ∧
    (∀ (f : UploadedFile) (e : Env), bothFail f = true →
      (POST f e).1 = invalidTypeResp f ∧ (POST f e).1.status = 400 ∧
      (POST f e).2.aiInvoked = false) ∧
    (∀ (f : UploadedFile) (e : Env), bothFail f = false → e.apiKeyPresent = true →
      branchOf f = .unsupported →
      (POST f e).1 = unsupportedResp ∧ (POST f e).2.aiInvoked = false) := by
  refine ⟨?_, ?_, ?_⟩
  · intro f e
    by_cases hb : bothFail f = true
    · simp [POST, hb]
      rfl
    · have hb2 : bothFail f = false := by
        cases hbv : bothFail f
        · rfl
        · exact absurd hbv hb
      rw [hb2]
      simp only [POST, hb2, Bool.false_eq_true, if_false]
      repeat' split
      all_goals first
        | rfl
        | exact (runAIResp_notInvalid _ _).symm
  · intro f e h
    have hp : POST f e = (invalidTypeResp f, emptyTrace) := by
      simp [POST, h]
    rw [hp]
    exact ⟨rfl, rfl, rfl⟩
  · intro f e hbf hkey hbr
    have hp : (POST f e).1 = unsupportedResp ∧ (POST f e).2.aiInvoked = false := by
      constructor <;> simp [POST, hbf, hkey, hbr]
    exact hp

/-- C2, witness: a file failing both checks receives the allow-list 400; the
mislabelled PNG passing one check receives the dispatch 400 instead. -/
theorem c2_witness :
    bothFail fileNoType = isInvalidTypeBody (POST fileNoType baseEnv).1.body ∧
    ((POST fileNoType baseEnv).1 = invalidTypeResp fileNoType ∧
     (POST fileNoType baseEnv).1.status = 400 ∧
     (POST fileNoType baseEnv).2.aiInvoked = false) ∧
    ((POST fileMislabeledPng baseEnv).1 = unsupportedResp ∧
     (POST fileMislabeledPng baseEnv).2.aiInvoked = false) :=
  ⟨c2_theorem.1 fileNoType baseEnv,
   c2_theorem.2.1 fileNoType baseEnv rfl,
   c2_theorem.2.2 fileMislabeledPng baseEnv rfl rfl rfl⟩

/-- C3: with `maxRetries = 3`, three overload failures followed by a success
make the handler succeed on exactly the fourth invocation; four overload
failures degrade to the overloaded fallback after exactly four invocations
without raising; a non-transient first failure stops after one attempt. -/
theorem c3_theorem :
    (∀ (f : UploadedFile) (e : Env) (m0 m1 m2 reply : List Char) (data : JSVal),
      bothFail f = false → e.apiKeyPresent = true → branchOf f = .image →
      e.aiOutcomes 0 = .err m0 → e.aiOutcomes 1 = .err m1 → e.aiOutcomes 2 = .err m2 →
      e.aiOutcomes 3 = .ok reply →
      containsSub (jsLower m0) "overloaded".data = true →
      containsSub (jsLower m1) "overloaded".data = true →
      containsSub (jsLower m2) "overloaded".data = true →
      parsePipeline reply = .ok data →
      (POST f e).1 = successResp f data ∧ (POST f e).2.attempts = 4) ∧
    (∀ (f : UploadedFile) (e : Env) (m0 m1 m2 m3 : List Char),
      bothFail f = false → e.apiKeyPresent = true → branchOf f = .image →
      e.aiOutcomes 0 = .err m0 → e.aiOutcomes 1 = .err m1 → e.aiOutcomes 2 = .err m2 →
      e.aiOutcomes 3 = .err m3 →
      containsSub (jsLower m0) "overloaded".data = true →
      containsSub (jsLower m1) "overloaded".data = true →
      containsSub (jsLower m2) "overloaded".data = true →
      containsSub (jsLower m3) "overloaded".data = true →
      (POST f e).1 = overloadedResp f ∧ (POST f e).2.attempts = 4) ∧
    (∀ (o : Nat → AiOutcome) (m : List Char),
      o 0 = .err m → isTransientErr m = false →
      retryLoop o = ⟨.error m, 1⟩) := by
  refine ⟨?_, ?_, ?_⟩
  · intro f e m0 m1 m2 reply data hbf hkey hbr h0 h1 h2 h3 t0 t1 t2 hpp
    have hr : retryLoop e.aiOutcomes = ⟨.ok reply, 4⟩ := by
      simp [retryLoop, retryAux, h0, h1, h2, h3, maxRetries,
        isTransient_of_overloaded _ t0, isTransient_of_overloaded _ t1,
        isTransient_of_overloaded _ t2]
    constructor
    · simp [POST, hbf, hkey, hbr, runAI, runAIResp, hr, hpp]
    · simp [POST, hbf, hkey, hbr, runAI, hr]
  · intro f e m0 m1 m2 m3 hbf hkey hbr h0 h1 h2 h3 t0 t1 t2 t3
    have hr : retryLoop e.aiOutcomes = ⟨.error m3, 4⟩ := by
      simp [retryLoop, retryAux, h0, h1, h2, h3, maxRetries,
        isTransient_of_overloaded _ t0, isTransient_of_overloaded _ t1,
        isTransient_of_overloaded _ t2, isTransient_of_overloaded _ t3]
    constructor
    · have hresp : (POST f e).1 = aiErrorResp f m3 := by
        simp [POST, hbf, hkey, hbr, runAI, runAIResp, hr]
      rw [hresp]
      simp [aiErrorResp, t3]
    · simp [POST, hbf, hkey, hbr, runAI, hr]
  · intro o m h0 ht
    simp [retryLoop, retryAux, h0, ht]

/-- C3, witness: the three scenarios at concrete inputs — success on the
fourth invocation, overloaded fallback after four failures, and immediate
stop on a non-transient error. -/
theorem c3_witness :
    ((POST filePdf retryOkEnv).1 =
      successResp filePdf (.jobj [("skills".data, JSVal.jarr [])]) ∧
     (POST filePdf retryOkEnv).2.attempts = 4) ∧
    ((POST filePdf overloadEnv).1 = overloadedResp filePdf ∧
     (POST filePdf overloadEnv).2.attempts = 4) ∧
    retryLoop baseEnv.aiOutcomes = ⟨.error "boom".data, 1⟩ :=
  ⟨c3_theorem.1 filePdf retryOkEnv overloadMsg overloadMsg overloadMsg skillsReply
      (.jobj [("skills".data, JSVal.jarr [])]) rfl rfl rfl rfl rfl rfl rfl
      (by decide) (by decide) (by decide) rfl,
   c3_theorem.2.1 filePdf overloadEnv overloadMsg overloadMsg overloadMsg overloadMsg
      rfl rfl rfl rfl rfl rfl rfl (by decide) (by decide) (by decide) (by decide),
   c3_theorem.2.2 baseEnv.aiOutcomes "boom".data rfl (by decide)⟩

/-- C4, counterexample: a fenced valid JSON object followed by prose that
contains braces makes both the direct parse and the greedy first-to-last
brace span parse fail, so the handler returns 500 — the claimed universal
parse success fails because the code does not extract the first balanced
span. -/
theorem c4_counterexample :
    (POST filePdf (envWithReply c4BadReply)).1.status = 500 ∧
    bodyGet (POST filePdf (envWithReply c4BadReply)).1.body "error".data =
      some (.jstr "Failed to parse AI response".data) := ⟨rfl, rfl⟩

/-- C4, amended: when the cleaned (fence-stripped, trimmed) reply is a valid
JSON object followed by prose containing no right brace, and the combined
text is not itself valid JSON, the repair parse succeeds with the object's
value — the extracted span runs from the first left brace to the last right
brace, which then coincides with the object. -/
theorem c4_theorem (reply mid prose : List Char) (v : JSVal)
    (hdecomp : cleanedText reply = ('\x7b' :: mid ++ ['\x7d']) ++ prose)
    (hnb : '\x7d' ∉ prose)
    (hj : jsonParse ('\x7b' :: mid ++ ['\x7d']) = some v)
    (hdirect : jsonParse (cleanedText reply) = none) :
    parsePipeline reply = .ok v := by
  rw [hdecomp] at hdirect
  simp only [parsePipeline, hdecomp, hdirect, repairParse,
    braceSpan_decomp mid prose hnb, hj]

/-- C4, witness: the fenced object with brace-free trailing prose parses to
the object's value through the repair path. -/
theorem c4_witness : parsePipeline c4GoodReply = .ok c4Val :=
  c4_theorem c4GoodReply c4Mid c4Prose c4Val rfl (by decide) rfl rfl

/-- C5, counterexample: when the model replies with the empty JSON object the
success response's `extractedData` carries only the normalised `skills` key
and lacks `name` (and the other claimed keys) — the key guarantee does not
hold on the AI-success path. -/
theorem c5_counterexample :
    bodyGet (POST filePdf (envWithReply emptyReply)).1.body "success".data =
      some (.jbool true) ∧
    bodyGet (POST filePdf (envWithReply emptyReply)).1.body "aiProcessed".data =
      some (.jbool true) ∧
    (bodyGet (POST filePdf (envWithReply emptyReply)).1.body "extractedData".data).map
      (fun v => hasKey v "name".data) = some false := ⟨rfl, rfl, rfl⟩

/-- C5, amended: every response flagged `aiProcessed:false` carries exactly
the empty skeleton as `extractedData`, and the skeleton has all seven claimed
keys; on the AI-success path `extractedData` is the model's parsed object and
only `skills` is guaranteed. -/
theorem c5_theorem :
    (∀ (f : UploadedFile) (e : Env),
      bodyGet (POST f e).1.body "aiProcessed".data = some (.jbool false) →
      bodyGet (POST f e).1.body "extractedData".data = some emptySkeleton) ∧
    (hasKey emptySkeleton "name".data = true ∧ hasKey emptySkeleton "email".data = true ∧
     hasKey emptySkeleton "phone".data = true ∧ hasKey emptySkeleton "skills".data = true ∧
     hasKey emptySkeleton "experience".data = true ∧
     hasKey emptySkeleton "education".data = true ∧
     hasKey emptySkeleton "summary".data = true) := by
  constructor
  · intro f e h
    revert h
    simp only [POST, runAI]
    repeat' split
    all_goals intro h
    all_goals first
      | rfl
      | exact runAIResp_fallback_shape _ _ h
      | exact Option.noConfusion h
  · exact ⟨rfl, rfl, rfl, rfl, rfl, rfl, rfl⟩

/-- C5, witness: a request whose model call fails hits a fallback path and
its `extractedData` is the empty skeleton. -/
theorem c5_witness :
    bodyGet (POST filePdf baseEnv).1.body "extractedData".data = some emptySkeleton :=
  c5_theorem.1 filePdf baseEnv rfl

/-- C6: a DOC/DOCX request where every extraction layer yields fewer than 10
characters gets the 200 success-shaped document-parsing fallback with
`aiProcessed:false`, `parseError:true` and the empty skeleton — never a 500. -/
theorem c6_theorem (f : UploadedFile) (e : Env)
    (hbr : branchOf f = .doc) (hbf : bothFail f = false) (hkey : e.apiKeyPresent = true)
    (hraw : (e.rawTextResult.getD []).length < 10)
    (hhtml : ∀ h, e.htmlResult = some h → (cleanHtml h).length < 10)
    (hsal : (salvageClean e.utf8Content).length < 10) :
    (POST f e).1 = docFallbackResp f unreadableMsg ∧
    (POST f e).1.status = 200 ∧
    bodyGet (POST f e).1.body "success".data = some (.jbool true) ∧
    bodyGet (POST f e).1.body "aiProcessed".data = some (.jbool false) ∧
    bodyGet (POST f e).1.body "parseError".data = some (.jbool true) ∧
    bodyGet (POST f e).1.body "extractedData".data = some emptySkeleton := by
  have hlen := docExtract_small e hraw hhtml hsal
  have hresp : (POST f e).1 = docFallbackResp f unreadableMsg := by
    simp [POST, hbf, hkey, hbr, hlen]
  rw [hresp]
  exact ⟨rfl, rfl, rfl, rfl, rfl, rfl⟩

/-- C6, witness: the DOCX upload whose three layers yield 2, 1 and 3
characters receives the 200 document-parsing fallback. -/
theorem c6_witness :
    (POST fileDocx docEnvSmall).1 = docFallbackResp fileDocx unreadableMsg ∧
    (POST fileDocx docEnvSmall).1.status = 200 ∧
    bodyGet (POST fileDocx docEnvSmall).1.body "success".data = some (.jbool true) ∧
    bodyGet (POST fileDocx docEnvSmall).1.body "aiProcessed".data = some (.jbool false) ∧
    bodyGet (POST fileDocx docEnvSmall).1.body "parseError".data = some (.jbool true) ∧
    bodyGet (POST fileDocx docEnvSmall).1.body "extractedData".data = some emptySkeleton :=
  c6_theorem fileDocx docEnvSmall rfl rfl rfl (by decide)
    (fun h hh => by cases hh; decide) (by decide)

/-- C7: the layered extraction short-circuits — a raw-text result of at least
50 characters suppresses both fallback layers and is final; a short raw-text
result with a cleaned HTML conversion of at least 20 characters suppresses
the salvage layer and the cleaned conversion is final. -/
theorem c7_theorem :
    (∀ (e : Env) (r : List Char), e.rawTextResult = some r → 50 ≤ r.length →
      (docExtract e).htmlInvoked = false ∧ (docExtract e).salvageInvoked = false ∧
      (docExtract e).text = r ∧ (docExtract e).method = "raw-text".data) ∧
    (∀ (e : Env) (r h : List Char), e.rawTextResult = some r → r.length < 50 →
      e.htmlResult = some h → 20 ≤ (cleanHtml h).length →
      (docExtract e).salvageInvoked = false ∧ (docExtract e).text = cleanHtml h ∧
      (docExtract e).htmlInvoked = true ∧
      (docExtract e).method = "html-fallback".data) := by
  constructor
  · intro e r hr hlen
    have h50 : ¬ r.length < 50 := by omega
    have h20 : ¬ r.length < 20 := by omega
    simp [docExtract, docRaw, docHtml, docSalvage, hr, h50, h20]
  · intro e r h hr hlen hh hclen
    have h20 : ¬ (cleanHtml h).length < 20 := by omega
    simp [docExtract, docRaw, docHtml, docSalvage, hr, hh, hlen, h20]

/-- C7, witness: a 60-character raw extraction short-circuits both fallbacks;
a 5-character raw extraction with a 33-character cleaned HTML conversion
suppresses the salvage layer. -/
theorem c7_witness :
    ((docExtract docEnvRawLong).htmlInvoked = false ∧
     (docExtract docEnvRawLong).salvageInvoked = false ∧
     (docExtract docEnvRawLong).text = List.replicate 60 'a' ∧
     (docExtract docEnvRawLong).method = "raw-text".data) ∧
    ((docExtract docEnvHtmlGood).salvageInvoked = false ∧
     (docExtract docEnvHtmlGood).text =
       cleanHtml "<p>This is a longer resume paragraph</p>".data ∧
     (docExtract docEnvHtmlGood).htmlInvoked = true ∧
     (docExtract docEnvHtmlGood).method = "html-fallback".data) :=
  ⟨c7_theorem.1 docEnvRawLong (List.replicate 60 'a') rfl (by decide),
   c7_theorem.2 docEnvHtmlGood "short".data
     "<p>This is a longer resume paragraph</p>".data rfl (by decide) rfl (by decide)⟩

/-- C8, counterexample: a reply whose direct parse fails but whose brace-span
repair parse succeeds with no `skills` field is returned unnormalised — the
success response's `extractedData` lacks `skills`, contradicting the claim
that both parse paths normalise it. -/
theorem c8_counterexample :
    bodyGet (POST filePdf (envWithReply c8Reply)).1.body "aiProcessed".data =
      some (.jbool true) ∧
    (bodyGet (POST filePdf (envWithReply c8Reply)).1.body "extractedData".data).map
      (fun v => hasKey v "skills".data) = some false := ⟨rfl, rfl⟩

/-- C8, amended: the skills normalisation applies on the direct-parse path
only — whenever the cleaned reply parses directly as an object, the pipeline
returns it with a guaranteed skills array; the repair path returns the span's
value verbatim. -/
theorem c8_theorem (reply : List Char) (fs : List (List Char × JSVal))
    (h : jsonParse (cleanedText reply) = some (.jobj fs)) :
    parsePipeline reply = .ok (.jobj (fixSkillsFields fs)) ∧
    skillsOk (fixSkillsFields fs) = true := by
  constructor
  · simp [parsePipeline, h, fixSkills]
  · exact skillsOk_fix fs

/-- C8, witness: the empty-object reply is normalised to carry an empty
skills array on the direct-parse path. -/
theorem c8_witness :
    parsePipeline emptyReply = .ok (.jobj (fixSkillsFields [])) ∧
    skillsOk (fixSkillsFields []) = true :=
  c8_theorem emptyReply [] rfl

/-- C9: the multi-file upload returns one element per input file in input
order; a failed file yields a captured-failure element with its error while
the other files' elements are their own response bodies, so one failure does
not abort the batch. -/
theorem c9_theorem :
    (∀ (outs : Nat → FetchOutcome) (files : List ClientFile),
      (uploadMultipleFiles outs files).length = files.length) ∧
    (∀ (f1 f2 f3 : ClientFile) (outs : Nat → FetchOutcome) (b1 b3 eb : JSVal),
      outs 0 = .ok b1 → outs 1 = .httpErr eb → outs 2 = .ok b3 →
      uploadMultipleFiles outs [f1, f2, f3] = [b1, failResult f2 (errOf eb), b3]) ∧
    (∀ (f : ClientFile) (m : List Char),
      bodyGet (failResult f m) "success".data = some (.jbool false) ∧
      bodyGet (failResult f m) "error".data = some (.jstr m) ∧
      bodyGet (failResult f m) "fileName".data = some (.jstr f.name)) := by
  refine ⟨?_, ?_, ?_⟩
  · intro outs files
    simp [uploadMultipleFiles]
  · intro f1 f2 f3 outs b1 b3 eb h0 h1 h2
    have he : uploadMultipleFiles outs [f1, f2, f3] =
        [uploadOne f1 (outs 0), uploadOne f2 (outs 1), uploadOne f3 (outs 2)] := rfl
    rw [he, h0, h1, h2]
    exact rfl
  · intro f m
    exact ⟨rfl, rfl, rfl⟩

/-- C9, witness: three files where the middle request fails produce the
ordered three-element result with the middle element captured as a failure. -/
theorem c9_witness :
    (uploadMultipleFiles c9Outs [clientA, clientB, clientC]).length = 3 ∧
    uploadMultipleFiles c9Outs [clientA, clientB, clientC] =
      [bodyA, failResult clientB (errOf errBody), bodyC] ∧
    bodyGet (failResult clientB "boom".data) "success".data = some (.jbool false) :=
  ⟨c9_theorem.1 c9Outs [clientA, clientB, clientC],
   c9_theorem.2.1 clientA clientB clientC c9Outs bodyA bodyC errBody rfl rfl rfl,
   (c9_theorem.2.2 clientB "boom".data).1⟩

/-- C10, counterexample: a `.txt`-named file declaring `image/png` is routed
to the binary branch and sent as inline base64 data, not as UTF-8 decoded
text — the claim's universal quantification over txt-extension files fails. -/
theorem c10_counterexample :
    fileExtensionOf fileTxtImageMime.name = "txt".data ∧
    (POST fileTxtImageMime envB64).2.branch = some .image ∧
    (POST fileTxtImageMime envB64).2.inlineData =
      some ("QUJD".data, "image/png".data) := ⟨rfl, rfl, rfl⟩

/-- C10, amended: a file with MIME `text/plain`, or with a `txt` extension
and a MIME type that is neither `image/*` nor `application/pdf`, is processed
on the text branch: the model is always invoked (no length floor or
garbled-text check applies, so even empty content proceeds), with the UTF-8
decoded content embedded in the text prompt and no inline binary payload. -/
theorem c10_theorem (f : UploadedFile) (e : Env)
    (hkey : e.apiKeyPresent = true) (hbf : bothFail f = false)
    (hmime : f.mime = "text/plain".data ∨
      (fileExtensionOf f.name = "txt".data ∧
       startsWithL f.mime "image/".data = false ∧ f.mime ≠ "application/pdf".data)) :
    (POST f e).2.branch = some .text ∧
    (POST f e).2.aiInvoked = true ∧
    (POST f e).2.inlineData = none ∧
    (POST f e).2.promptText = textPromptOf e.utf8Content ++ promptSchema := by
  have hbr : branchOf f = .text := by
    rcases hmime with hmime | ⟨hext, him, hpdf⟩
    · simp only [branchOf, hmime]
      rfl
    · have d1 : (f.mime == "application/pdf".data) = false := by
        simp [hpdf]
      have d2 : (fileExtensionOf f.name == "txt".data) = true := by
        rw [hext]
        simp
      simp [branchOf, him, d1, d2]
  simp [POST, hbf, hkey, hbr, runAI]

/-- C10, witness: an empty plain-text file still reaches the model on the
text branch with the (empty) decoded content embedded in the prompt. -/
theorem c10_witness :
    (POST fileTxt baseEnv).2.branch = some .text ∧
    (POST fileTxt baseEnv).2.aiInvoked = true ∧
    (POST fileTxt baseEnv).2.inlineData = none ∧
    (POST fileTxt baseEnv).2.promptText =
      textPromptOf baseEnv.utf8Content ++ promptSchema :=
  c10_theorem fileTxt baseEnv rfl rfl (Or.inl rfl)

end Tropl
